import Mathlib

/-!
Verification of the TaskManager backend (Go, Echo + PostgreSQL) against its
natural-language specification.  The Go sources are shallowly embedded:
machine integers become Nat/Int, time instants and durations become integer
nanosecond counts (as in the Go time package), uuid values become Nat ids,
fallible operations return Except/Option, and the stateful job dispatcher
becomes a step function on an explicit task state.  Definitions translated
from repository files cite the file; parts of the repository whose code is
not among the provided sources (repository/service/sqlerr/jobs/validation
internals) are modelled from the specification and say so in their doc
comment.
-/

namespace TaskManager

/-- Time instants and durations in integer nanoseconds, as in the Go
time package (time.Time / time.Duration). -/
abbrev Time := Int

/-- Status values from internal/model/todo/todo.go: draft, active,
completed, archived. -/
inductive Status where
  | draft
  | active
  | completed
  | archived
deriving DecidableEq, Repr

/-- Priority values from internal/model/todo/todo.go: low, medium, high. -/
inductive Priority where
  | low
  | medium
  | high
deriving DecidableEq, Repr

/-- Metadata from internal/model/todo/todo.go: tags, reminder, color,
difficulty. -/
structure Metadata where
  tags : List String
  reminder : Option String
  color : Option String
  difficulty : Option Int
deriving DecidableEq, Repr

/-- Todo from internal/model/todo/todo.go, flattened with the model.Base
fields (ID, CreatedAt, UpdatedAt).  uuid values are embedded as Nat ids. -/
structure Todo where
  id : Nat
  createdAt : Time
  updatedAt : Time
  userID : String
  title : String
  description : Option String
  status : Status
  priority : Priority
  dueDate : Option Time
  completedAt : Option Time
  parentTodoID : Option Nat
  categoryID : Option Nat
  metadata : Option Metadata
  sortOrder : Int
deriving DecidableEq, Repr

/-- Category from internal/model/category/category.go, flattened with the
model.Base fields. -/
structure Category where
  id : Nat
  createdAt : Time
  updatedAt : Time
  userID : String
  name : String
  color : String
  description : Option String
deriving DecidableEq, Repr

/-- Comment from internal/model/comment/comment.go, flattened with the
model.Base fields. -/
structure Comment where
  id : Nat
  createdAt : Time
  updatedAt : Time
  todoID : Nat
  userID : String
  content : String
deriving DecidableEq, Repr

/-- PaginatedResponse from internal/model/base.go. -/
structure PaginatedResponse (T : Type) where
  data : List T
  page : Nat
  limit : Nat
  total : Nat
  totalPages : Nat
deriving Repr

/-- HTTP methods used by the Echo route registrations. -/
inductive Method where
  | GET
  | POST
  | PUT
  | PATCH
  | DELETE
deriving DecidableEq, Repr

/-- One registered Echo route: method, full path, handler name. -/
structure Route where
  method : Method
  path : String
  handlerName : String
deriving DecidableEq, Repr

/-- Routes registered by registerCategoryRoutes in
src/backend/internal/router/v1/category.go (lines 9-22).  The group base
is the /api/v1 group passed down from RegisterV1Routes; the function
creates the /categories group, POST and GET on the collection, and a
/:id subgroup with PATCH (UpdateCategory) and DELETE (DeleteCategory). -/
def registerCategoryRoutes : List Route :=
  [ ⟨Method.POST, "/api/v1/categories", "CreateCategory"⟩,
    ⟨Method.GET, "/api/v1/categories", "GetCategories"⟩,
    ⟨Method.PATCH, "/api/v1/categories/:id", "UpdateCategory"⟩,
    ⟨Method.DELETE, "/api/v1/categories/:id", "DeleteCategory"⟩ ]

/-- Routes registered by registerCommentRoutes in
src/unnamed/part_001 (lines 349-358): a /comments group under /api/v1
with a /:id subgroup carrying PATCH (UpdateComment) and DELETE
(DeleteComment). -/
def registerCommentRoutes : List Route :=
  [ ⟨Method.PATCH, "/api/v1/comments/:id", "UpdateComment"⟩,
    ⟨Method.DELETE, "/api/v1/comments/:id", "DeleteComment"⟩ ]

/-- Sort fields accepted by the todo listing (spec 4.2 and the README
query-parameter table): created_at, updated_at, title, priority,
due_date, status. -/
inductive SortField where
  | created_at
  | updated_at
  | title
  | priority
  | due_date
  | status
deriving DecidableEq, Repr

/-- Sort directions accepted by the todo listing. -/
inductive SortOrder where
  | asc
  | desc
deriving DecidableEq, Repr

/-- GetTodosQuery: the filter parameters of GET /api/v1/todos wired in
src/unnamed/part_004 (TodoHandler.GetTodos) and listed in the README:
page, limit, sort, order, search, status, priority, categoryId,
parentTodoId, dueFrom, dueTo, overdue, completed. -/
structure GetTodosQuery where
  page : Option Nat
  limit : Option Nat
  sort : Option SortField
  order : Option SortOrder
  search : Option String
  status : Option Status
  priority : Option Priority
  categoryId : Option Nat
  parentTodoId : Option Nat
  dueFrom : Option Time
  dueTo : Option Time
  overdue : Option Bool
  completed : Option Bool
deriving Repr

/-- GetTodosQuery with every parameter absent. -/
def emptyQuery : GetTodosQuery :=
  ⟨none, none, none, none, none, none, none, none, none, none, none, none, none⟩

/-- Rank of a priority for the priority sort (low before medium before
high). -/
def Priority.rank : Priority → Nat
  | Priority.low => 0
  | Priority.medium => 1
  | Priority.high => 2

/-- Rank of a status for the status sort (declaration order of the
Status enum). -/
def Status.rank : Status → Nat
  | Status.draft => 0
  | Status.active => 1
  | Status.completed => 2
  | Status.archived => 3

/-- Byte-wise comparison of two character lists, the order the store
uses for the title sort. -/
def charListLe : List Char → List Char → Bool
  | [], _ => true
  | _ :: _, [] => false
  | a :: as, b :: bs =>
      if a.toNat < b.toNat then true
      else if b.toNat < a.toNat then false
      else charListLe as bs

/-- Does the character list start with the given needle. -/
def charListStarts : List Char → List Char → Bool
  | _, [] => true
  | [], _ :: _ => false
  | h :: hs, n :: ns => h == n && charListStarts hs ns

/-- Does the character list contain the needle as a contiguous run. -/
def charListHasRun : List Char → List Char → Bool
  | [], needle => needle.isEmpty
  | h :: hs, needle => charListStarts (h :: hs) needle || charListHasRun hs needle

/-- Case-insensitive substring match used by the search filter. -/
def containsInsensitive (hay needle : String) : Bool :=
  charListHasRun hay.toLower.data needle.toLower.data

/-- Modelled from the spec: the ascending comparison of one sort field
(ORDER BY column).  The repository query builder
(backend/internal/repository/todo.go) is not among the provided sources.
A todo without a due date sorts after every dated todo in ascending
due-date order (NULLS LAST). -/
def sortFieldLe : SortField → Todo → Todo → Bool
  | SortField.created_at, a, b => decide (a.createdAt ≤ b.createdAt)
  | SortField.updated_at, a, b => decide (a.updatedAt ≤ b.updatedAt)
  | SortField.title, a, b => charListLe a.title.data b.title.data
  | SortField.priority, a, b => decide (a.priority.rank ≤ b.priority.rank)
  | SortField.due_date, a, b =>
      match a.dueDate, b.dueDate with
      | none, none => true
      | none, some _ => false
      | some _, none => true
      | some x, some y => decide (x ≤ y)
  | SortField.status, a, b => decide (a.status.rank ≤ b.status.rank)

/-- Modelled from the spec: the comparison the listing sorts with, built
from the sort and order parameters (defaults created_at descending per
the README). -/
def GetTodosQuery.sortLe (q : GetTodosQuery) : Todo → Todo → Bool :=
  let f := q.sort.getD SortField.created_at
  match q.order.getD SortOrder.desc with
  | SortOrder.asc => fun a b => sortFieldLe f a b
  | SortOrder.desc => fun a b => sortFieldLe f b a

/-- Modelled from the spec: the overdue predicate, due date strictly
before now and status not in \x7bcompleted, archived\x7d (spec 4.2
filter table). -/
def Todo.isOverdue (now : Time) (t : Todo) : Bool :=
  match t.dueDate with
  | some d => decide (d < now) && !(t.status == Status.completed)
      && !(t.status == Status.archived)
  | none => false

/-- Modelled from the spec: the WHERE predicate of the todo listing
(backend/internal/repository/todo.go is not among the provided sources).
The result set is scoped by the owning user id first; every other
recognized filter is combined with logical AND (spec 4.2). -/
def matchesFilters (now : Time) (userID : String) (q : GetTodosQuery)
    (t : Todo) : Bool :=
  t.userID == userID
  && (match q.search with
      | some s => containsInsensitive t.title s
      | none => true)
  && (match q.status with
      | some s => t.status == s
      | none => true)
  && (match q.priority with
      | some p => t.priority == p
      | none => true)
  && (match q.categoryId with
      | some c => t.categoryID == some c
      | none => true)
  && (match q.parentTodoId with
      | some p => t.parentTodoID == some p
      | none => true)
  && (match q.dueFrom with
      | some d => (match t.dueDate with
          | some dd => decide (d ≤ dd)
          | none => false)
      | none => true)
  && (match q.dueTo with
      | some d => (match t.dueDate with
          | some dd => decide (dd ≤ d)
          | none => false)
      | none => true)
  && (match q.overdue with
      | some b => t.isOverdue now == b
      | none => true)
  && (match q.completed with
      | some b => (t.status == Status.completed) == b
      | none => true)

/-- Modelled from the spec: the full matching result set of the listing
before the page slice is taken (the predicate applied to the store,
total count computed from it without the page and limit clauses). -/
def todosMatched (now : Time) (userID : String) (q : GetTodosQuery)
    (db : List Todo) : List Todo :=
  db.filter (matchesFilters now userID q)

/-- Modelled from the spec: the effective page size, default 20, at
least 1, capped at the sane maximum 100 (spec 4.2). -/
def effectiveLimit (q : GetTodosQuery) : Nat :=
  min (max (q.limit.getD 20) 1) 100

/-- Modelled from the spec: the effective page number, default 1,
minimum 1 (spec 4.2). -/
def effectivePage (q : GetTodosQuery) : Nat :=
  max (q.page.getD 1) 1

/-- Modelled from the spec: the todo listing operation
(TodoService.GetTodos / TodoRepository, not among the provided sources;
its handler wiring is src/unnamed/part_004 lines 50-60).  Filters to the
requesting user, counts the matching rows, sorts, and returns the slice
offset (page-1)*limit of size limit, with totalPages = ceil(total/limit)
computed as (total + limit - 1) / limit. -/
def GetTodos (now : Time) (userID : String) (q : GetTodosQuery)
    (db : List Todo) : PaginatedResponse Todo :=
  let matched := todosMatched now userID q db
  let total := matched.length
  let limit := effectiveLimit q
  let page := effectivePage q
  let sorted := matched.insertionSort (fun a b => q.sortLe a b = true)
  { data := (sorted.drop ((page - 1) * limit)).take limit
    page := page
    limit := limit
    total := total
    totalPages := (total + limit - 1) / limit }

/-- A concrete todo owned by the given user, used to evaluate the
listing on concrete inputs. -/
def sampleTodo (i : Nat) (userID : String) : Todo :=
  { id := i, createdAt := Int.ofNat i, updatedAt := Int.ofNat i
    userID := userID, title := "task", description := none
    status := Status.active, priority := Priority.medium
    dueDate := none, completedAt := none, parentTodoID := none
    categoryID := none, metadata := none, sortOrder := 0 }

/-- Twenty-five todos all owned by user A. -/
def sampleDB : List Todo :=
  (List.range 25).map (fun i => sampleTodo i "A")

/-- Nanoseconds in one second, as in the Go time package. -/
def nsPerSecond : Int := 1000000000

/-- Nanoseconds in one hour, as in the Go time package. -/
def nsPerHour : Int := 3600 * nsPerSecond

/-- Nanoseconds in one day (24 hours). -/
def nsPerDay : Int := 24 * nsPerHour

/-- Template data of the due-date reminder email. -/
structure DueDateReminderData where
  todoTitle : String
  todoID : String
  daysUntilDue : Int
deriving DecidableEq, Repr

/-- Template data of the overdue notification email. -/
structure OverdueNotificationData where
  todoTitle : String
  todoID : String
  daysOverdue : Int
deriving DecidableEq, Repr

/-- Template data built by Client.SendDueDateReminderEmail in
internal/lib/email/emails.go: DaysUntilDue is
int(dueDate.Sub(time.Now()).Hours() / 24).  The Go int() conversion
truncates toward zero, embedded exactly as Int.tdiv of the nanosecond
duration by the nanoseconds of one day (Hours() divides by one hour, the
code then divides by 24). -/
def SendDueDateReminderEmailData (now : Time) (todoTitle todoID : String)
    (dueDate : Time) : DueDateReminderData :=
  ⟨todoTitle, todoID, Int.tdiv (dueDate - now) nsPerDay⟩

/-- Template data built by Client.SendOverdueNotificationEmail in
internal/lib/email/emails.go: DaysOverdue is
int(time.Now().Sub(dueDate).Hours() / 24), truncation toward zero. -/
def SendOverdueNotificationEmailData (now : Time) (todoTitle todoID : String)
    (dueDate : Time) : OverdueNotificationData :=
  ⟨todoTitle, todoID, Int.tdiv (now - dueDate) nsPerDay⟩

/-- CreateTodoPayload bound by TodoHandler.CreateTodo
(src/unnamed/part_004); field set modelled from the spec data model
(internal/model/todo is only partially among the provided sources). -/
structure CreateTodoPayload where
  title : String
  description : Option String
  status : Option Status
  priority : Option Priority
  dueDate : Option Time
  parentTodoID : Option Nat
  categoryID : Option Nat
  metadata : Option Metadata
deriving DecidableEq, Repr

/-- UpdateTodoPayload bound by TodoHandler.UpdateTodo
(src/unnamed/part_004); each field optional, absent fields keep the
stored value. -/
structure UpdateTodoPayload where
  id : Nat
  title : Option String
  description : Option String
  status : Option Status
  priority : Option Priority
  dueDate : Option Time
  parentTodoID : Option Nat
  categoryID : Option Nat
  metadata : Option Metadata
deriving DecidableEq, Repr

/-- DeleteTodoPayload bound by TodoHandler.DeleteTodo
(src/unnamed/part_004): the path id. -/
structure DeleteTodoPayload where
  id : Nat
deriving DecidableEq, Repr

/-- Modelled from the spec: TodoService.CreateTodo
(backend/internal/service/todo.go is not among the provided sources).
The service owns the completedAt invariant: completedAt is set to now
exactly when the created status is completed (spec section 3); status
defaults to draft and priority to medium; createdAt = updatedAt = now. -/
def TodoService.CreateTodo (now : Time) (newID : Nat) (userID : String)
    (p : CreateTodoPayload) : Todo :=
  let st := p.status.getD Status.draft
  { id := newID, createdAt := now, updatedAt := now, userID := userID
    title := p.title, description := p.description, status := st
    priority := p.priority.getD Priority.medium, dueDate := p.dueDate
    completedAt := if st = Status.completed then some now else none
    parentTodoID := p.parentTodoID, categoryID := p.categoryID
    metadata := p.metadata, sortOrder := 0 }

/-- Modelled from the spec: TodoService.UpdateTodo
(backend/internal/service/todo.go is not among the provided sources).
Present payload fields replace the stored ones; the service keeps the
completedAt invariant: when the resulting status is completed the
timestamp is the stored one if the todo was already completed and now
otherwise, and when the resulting status is not completed the timestamp
is cleared. -/
def TodoService.UpdateTodo (now : Time) (t : Todo) (p : UpdateTodoPayload) :
    Todo :=
  let st := p.status.getD t.status
  { t with
    title := p.title.getD t.title
    description := p.description <|> t.description
    status := st
    priority := p.priority.getD t.priority
    dueDate := p.dueDate <|> t.dueDate
    completedAt :=
      if st = Status.completed then
        (if t.status = Status.completed then t.completedAt else some now)
      else none
    parentTodoID := p.parentTodoID <|> t.parentTodoID
    categoryID := p.categoryID <|> t.categoryID
    metadata := p.metadata <|> t.metadata
    updatedAt := now }

/-- The completedAt invariant of the data model: completedAt is non-null
exactly when the status is completed. -/
def completedInvariant (t : Todo) : Prop :=
  t.completedAt.isSome = true ↔ t.status = Status.completed

/-- A sequence of timed update calls applied after a create call, the
observable service-layer histories of one todo. -/
def applyUpdates (t : Todo) (ops : List (Time × UpdateTodoPayload)) : Todo :=
  ops.foldl (fun t op => TodoService.UpdateTodo op.1 t op.2) t

/-- HTTPError from internal/errs (README lines 521-529, constructors in
part_000): machine-readable code, human message, HTTP status, override
flag, optional field-level errors, optional action.  The field map is
embedded as an association list. -/
structure HTTPError where
  code : String
  message : String
  status : Nat
  override : Bool
  errors : List (String × String)
  action : String
deriving DecidableEq, Repr

/-- Modelled from the spec: the BadRequest constructor of internal/errs
(its file is not among the provided sources), HTTP 400. -/
def NewBadRequestError (message : String) : HTTPError :=
  ⟨"BAD_REQUEST", message, 400, false, [], ""⟩

/-- Modelled from the spec: the validation-failure error, HTTP 400
carrying the field-name to message map of every violation. -/
def ValidationError (errors : List (String × String)) : HTTPError :=
  ⟨"VALIDATION_ERROR", "validation failed", 400, false, errors, ""⟩

/-- Modelled from the spec: the NotFound constructor, HTTP 404. -/
def NewNotFoundError (message : String) : HTTPError :=
  ⟨"NOT_FOUND", message, 404, false, [], ""⟩

/-- Modelled from the spec: the Conflict constructor, HTTP 409. -/
def NewConflictError (message : String) : HTTPError :=
  ⟨"CONFLICT", message, 409, false, [], ""⟩

/-- Modelled from the spec: the InternalServerError constructor, HTTP
500 with a fixed message so the original error never reaches the
response body. -/
def NewInternalServerError : HTTPError :=
  ⟨"INTERNAL_SERVER_ERROR", "internal server error", 500, false, [], ""⟩

/-- Modelled from the spec: outcome of decoding the incoming request
into the typed payload (echo Bind inside validation.BindAndValidate,
whose file is not among the provided sources). -/
inductive BindResult (Req : Type) where
  | ok (req : Req)
  | failed (message : String)

/-- Modelled from the spec: one field-level validation rule of a typed
payload (go-playground validator tag): field name, message, check. -/
structure FieldRule (Req : Type) where
  field : String
  message : String
  check : Req → Bool

/-- Modelled from the spec: extractValidationErrors of
internal/validation (not among the provided sources) collects EVERY
violated rule into the field-name to message map, not only the first. -/
def extractValidationErrors {Req : Type} (rules : List (FieldRule Req))
    (req : Req) : List (String × String) :=
  (rules.filter (fun r => !(r.check req))).map (fun r => (r.field, r.message))

/-- Modelled from the spec: validation.BindAndValidate — bind the
payload, on bind error a BadRequest with the message, otherwise validate
and on any violation a single 400 ValidationError with all violations. -/
def BindAndValidate {Raw Req : Type} (bind : Raw → BindResult Req)
    (rules : List (FieldRule Req)) (raw : Raw) : Except HTTPError Req :=
  match bind raw with
  | BindResult.failed msg => Except.error (NewBadRequestError msg)
  | BindResult.ok req =>
      match extractValidationErrors rules req with
      | [] => Except.ok req
      | e :: es => Except.error (ValidationError (e :: es))

/-- The response a typed handler produces: a JSON body with a status, a
bodyless status (the no-content variant), or a structured error. -/
inductive Response (Res : Type) where
  | json (status : Nat) (body : Res)
  | noContent (status : Nat)
  | failure (e : HTTPError)
deriving DecidableEq, Repr

/-- Modelled from the spec: the generic typed handler Handle of
internal/handler/base.go (not among the provided sources; spec 4.1):
bind and validate, then run the business function, then respond with
the configured success status and the JSON body. -/
def Handle {Raw Req Res : Type} (bind : Raw → BindResult Req)
    (rules : List (FieldRule Req))
    (business : Req → Except HTTPError Res)
    (successStatus : Nat) (raw : Raw) : Response Res :=
  match BindAndValidate bind rules raw with
  | Except.error e => Response.failure e
  | Except.ok req =>
      match business req with
      | Except.error e => Response.failure e
      | Except.ok res => Response.json successStatus res

/-- Modelled from the spec: HandleNoContent of internal/handler/base.go,
the no-content variant whose business function returns only an error;
success is the configured status with an empty body. -/
def HandleNoContent {Raw Req : Type} (bind : Raw → BindResult Req)
    (rules : List (FieldRule Req))
    (business : Req → Option HTTPError)
    (successStatus : Nat) (raw : Raw) : Response Unit :=
  match BindAndValidate bind rules raw with
  | Except.error e => Response.failure e
  | Except.ok req =>
      match business req with
      | some e => Response.failure e
      | none => Response.noContent successStatus

/-- TodoHandler.CreateTodo from src/unnamed/part_004 lines 26-36: wires
Handle at http.StatusCreated (201) with the todo service create applied
to the authenticated user id. -/
def TodoHandler.CreateTodo {Raw : Type}
    (bind : Raw → BindResult CreateTodoPayload)
    (rules : List (FieldRule CreateTodoPayload))
    (svcCreateTodo : String → CreateTodoPayload → Except HTTPError Todo)
    (userID : String) (raw : Raw) : Response Todo :=
  Handle bind rules (svcCreateTodo userID) 201 raw

/-- TodoHandler.DeleteTodo from src/unnamed/part_004 lines 74-84: wires
HandleNoContent at http.StatusNoContent (204) with the todo service
delete applied to the authenticated user id and the payload id. -/
def TodoHandler.DeleteTodo {Raw : Type}
    (bind : Raw → BindResult DeleteTodoPayload)
    (rules : List (FieldRule DeleteTodoPayload))
    (svcDeleteTodo : String → Nat → Option HTTPError)
    (userID : String) (raw : Raw) : Response Unit :=
  HandleNoContent bind rules (fun p => svcDeleteTodo userID p.id) 204 raw

/-- PostgreSQL constraint classes distinguished by internal/sqlerr
(README lines 540-546): codes 23502, 23503, 23505, 23514 and the rest. -/
inductive PgErrorCode where
  | notNullViolation
  | foreignKeyViolation
  | uniqueViolation
  | checkViolation
  | otherPg
deriving DecidableEq, Repr

/-- Modelled from the spec: the raw storage-layer error reaching
sqlerr.HandleError (internal/sqlerr/handler.go is not among the
provided sources): an already structured HTTP error, a no-rows
condition, a classified pg constraint error carrying the offending
column, or anything else carrying the driver detail. -/
inductive RawError where
  | httpError (e : HTTPError)
  | noRows
  | pgError (code : PgErrorCode) (columnName : String) (detail : String)
  | otherError (detail : String)

/-- Modelled from the spec: sqlerr.HandleError (spec 4.3, README lines
540-546).  In order: structured HTTP errors pass through unchanged,
no-rows maps to 404, uniqueness to 409, not-null to 400 naming the
offending field, foreign-key and check to 400, everything else to the
fixed 500 whose body never contains the original error. -/
def HandleError : RawError → HTTPError
  | RawError.httpError e => e
  | RawError.noRows => NewNotFoundError "resource not found"
  | RawError.pgError PgErrorCode.uniqueViolation _ _ =>
      NewConflictError "resource already exists"
  | RawError.pgError PgErrorCode.notNullViolation col _ =>
      { NewBadRequestError "missing required field" with
        errors := [(col, "this field is required")] }
  | RawError.pgError PgErrorCode.foreignKeyViolation _ _ =>
      NewBadRequestError "invalid reference"
  | RawError.pgError PgErrorCode.checkViolation _ _ =>
      NewBadRequestError "constraint violated"
  | RawError.pgError PgErrorCode.otherPg _ _ => NewInternalServerError
  | RawError.otherError _ => NewInternalServerError

/-- Per-task delivery policy of the job dispatcher (README Background
Jobs section): MaxRetry, queue lane, timeout seconds. -/
structure TaskPolicy where
  maxAttempts : Nat
  queue : String
  timeoutSeconds : Nat
deriving DecidableEq, Repr

/-- Modelled from the spec: the default policy, max 3 delivery attempts,
default lane, 30 second timeout (spec 4.4; internal/lib/jobs is not
among the provided sources). -/
def defaultTaskPolicy : TaskPolicy :=
  ⟨3, "default", 30⟩

/-- Delivery state of a background task: waiting for a delivery
attempt, delivered, or dead after exhausting the attempt budget
(retained for inspection, never deleted). -/
inductive TaskState where
  | pending
  | succeeded
  | dead
deriving DecidableEq, Repr

/-- A queued background task: type tag, serialized payload, number of
delivery attempts made so far, delivery state. -/
structure Task where
  taskType : String
  payload : String
  attempts : Nat
  state : TaskState
deriving DecidableEq, Repr

/-- A freshly enqueued task: no attempts yet, pending. -/
def newTask (taskType payload : String) : Task :=
  ⟨taskType, payload, 0, TaskState.pending⟩

/-- Modelled from the spec: one dispatch step of the job worker under a
policy (spec 4.4).  Only a pending task is dispatched; a successful
handler run delivers it, a failed run re-enqueues it until the attempt
budget is reached, after which it moves to the dead state and is kept.
A task in a terminal state is never dispatched, so a step leaves it
unchanged. -/
def stepTask (policy : TaskPolicy) (handlerSucceeds : Bool) (t : Task) :
    Task :=
  match t.state with
  | TaskState.pending =>
      if handlerSucceeds then
        { t with attempts := t.attempts + 1, state := TaskState.succeeded }
      else if t.attempts + 1 < policy.maxAttempts then
        { t with attempts := t.attempts + 1 }
      else
        { t with attempts := t.attempts + 1, state := TaskState.dead }
  | _ => t

/-- Run the dispatcher on a task through a sequence of handler
outcomes. -/
def runTask (policy : TaskPolicy) (outcomes : List Bool) (t : Task) : Task :=
  outcomes.foldl (fun t ok => stepTask policy ok t) t

/-! Helper lemmas shared by the claim theorems. -/

/-- A todo on the returned page is in the matched result set: the page
slice is a take of a drop of a permutation of the filtered list. -/
theorem mem_todosMatched_of_mem_data {now : Time} {userID : String}
    {q : GetTodosQuery} {db : List Todo} {t : Todo}
    (h : t ∈ (GetTodos now userID q db).data) :
    t ∈ todosMatched now userID q db := by
  unfold GetTodos at h
  simp only at h
  have h1 := List.mem_of_mem_drop (List.mem_of_mem_take h)
  exact (List.perm_insertionSort (fun a b => q.sortLe a b = true) _).mem_iff.mp h1

/-- The first conjunct of the listing predicate: a matching todo is
owned by the requesting user. -/
theorem matchesFilters_userID {now : Time} {userID : String}
    {q : GetTodosQuery} {t : Todo}
    (h : matchesFilters now userID q t = true) : t.userID = userID := by
  unfold matchesFilters at h
  simp only [Bool.and_eq_true] at h
  exact eq_of_beq h.1.1.1.1.1.1.1.1.1

/-- The overdue conjunct of the listing predicate when the query sets
overdue. -/
theorem matchesFilters_overdue {now : Time} {userID : String}
    {q : GetTodosQuery} {t : Todo} (hov : q.overdue = some true)
    (h : matchesFilters now userID q t = true) : t.isOverdue now = true := by
  unfold matchesFilters at h
  rw [hov] at h
  simp only [Bool.and_eq_true] at h
  exact eq_of_beq h.1.2

/-- Ceiling division on Nat: the (total + limit - 1) / limit formula of
the pagination envelope equals the ceiling of the rational quotient. -/
theorem add_pred_div_eq_ceil (total L : Nat) (hL : 0 < L) :
    (total + L - 1) / L = ⌈(total : ℚ) / (L : ℚ)⌉₊ := by
  rcases Nat.eq_zero_or_pos total with h0 | hpos
  · subst h0
    have h1 : (0 + L - 1) / L = 0 := Nat.div_eq_of_lt (by omega)
    rw [h1, Nat.cast_zero, zero_div, Nat.ceil_zero]
  · have hbudget := Nat.div_add_mod (total + L - 1) L
    have hmlt : (total + L - 1) % L < L := Nat.mod_lt _ hL
    have hk1 : 1 ≤ (total + L - 1) / L := by
      rw [Nat.one_le_div_iff hL]
      omega
    have hLQ : (0 : ℚ) < (L : ℚ) := by exact_mod_cast hL
    have hcast2 : ((total + L - 1 : ℕ) : ℚ) = (total : ℚ) + L - 1 := by
      have h1 : (1 : ℕ) ≤ total + L := by omega
      rw [Nat.cast_sub h1]
      push_cast
      ring
    have hQ : (L : ℚ) * ((total + L - 1) / L : ℕ) + ((total + L - 1) % L : ℕ)
        = (total : ℚ) + L - 1 := by
      calc (L : ℚ) * ((total + L - 1) / L : ℕ) + ((total + L - 1) % L : ℕ)
          = ((L * ((total + L - 1) / L) + (total + L - 1) % L : ℕ) : ℚ) := by
            push_cast
            ring
        _ = ((total + L - 1 : ℕ) : ℚ) := by rw [hbudget]
        _ = (total : ℚ) + L - 1 := hcast2
    have hmQ : ((total + L - 1) % L : ℕ) + 1 ≤ (L : ℚ) := by
      exact_mod_cast hmlt
    have hmQ0 : (0 : ℚ) ≤ ((total + L - 1) % L : ℕ) := by positivity
    symm
    rw [Nat.ceil_eq_iff (by omega)]
    constructor
    · rw [lt_div_iff₀ hLQ, Nat.cast_sub hk1, Nat.cast_one]
      nlinarith [hQ, hmQ0]
    · rw [div_le_iff₀ hLQ]
      nlinarith [hQ, hmQ]

/-- Claim C1: for every user id, filter combination, page and limit, the
todo listing returns only todos whose owning user id equals the
authenticated user id, because the repository predicate is scoped by the
user id before any other filter. -/
theorem GetTodos_scoped_to_user (now : Time) (userID : String)
    (q : GetTodosQuery) (db : List Todo) :
    ∀ t ∈ (GetTodos now userID q db).data, t.userID = userID := by
  intro t ht
  have hm := mem_todosMatched_of_mem_data ht
  unfold todosMatched at hm
  exact matchesFilters_userID (List.mem_filter.mp hm).2

/-- Witness for C1: a concrete listing over a one-todo store returns the
todo of the requesting user. -/
theorem GetTodos_scoped_to_user_witness :
    (sampleTodo 0 "A").userID = "A" :=
  GetTodos_scoped_to_user 0 "A" emptyQuery [sampleTodo 0 "A"]
    (sampleTodo 0 "A") (by decide)

/-- Claim C3: the listing returns at most limit items, totalPages is the
ceiling of total over limit, and over 25 matching todos page 3 with
limit 10 holds exactly 5 items while page 4 holds 0 items (the listing
is total, so no error is possible). -/
theorem GetTodos_pagination (now : Time) (userID : String)
    (q : GetTodosQuery) (db : List Todo) (p L : Nat)
    (hp : 1 ≤ p) (hL1 : 1 ≤ L) (hL2 : L ≤ 100)
    (hqp : q.page = some p) (hql : q.limit = some L) :
    (GetTodos now userID q db).data.length ≤ L
    ∧ (GetTodos now userID q db).totalPages
        = ⌈((GetTodos now userID q db).total : ℚ) / (L : ℚ)⌉₊
    ∧ (GetTodos 0 "A" { emptyQuery with page := some 3, limit := some 10 }
        sampleDB).data.length = 5
    ∧ (GetTodos 0 "A" { emptyQuery with page := some 3, limit := some 10 }
        sampleDB).total = 25
    ∧ (GetTodos 0 "A" { emptyQuery with page := some 4, limit := some 10 }
        sampleDB).data.length = 0 := by
  have hL : effectiveLimit q = L := by
    unfold effectiveLimit
    rw [hql]
    simp only [Option.getD_some]
    omega
  refine ⟨?_, ?_, by decide, by decide, by decide⟩
  · unfold GetTodos
    simp only [List.length_take, hL]
    exact inf_le_left
  · unfold GetTodos
    simp only [hL]
    exact add_pred_div_eq_ceil _ L (by omega)

/-- Witness for C3: the general bounds applied at page 2, limit 10 over
the 25-todo store. -/
theorem GetTodos_pagination_witness :
    (GetTodos 0 "A" { emptyQuery with page := some 2, limit := some 10 }
      sampleDB).data.length ≤ 10 :=
  (GetTodos_pagination 0 "A"
    { emptyQuery with page := some 2, limit := some 10 } sampleDB 2 10
    (by decide) (by decide) (by decide) rfl rfl).1

/-- Claim C4: with overdue=true the matched result set is exactly the
todos of the requesting user whose due date is strictly before now and
whose status is neither completed nor archived; a todo due one second in
the future is excluded; and on any page of any overdue=true query every
returned todo is owned by the user and overdue. -/
theorem GetTodos_overdue_filter (now : Time) (userID : String)
    (db : List Todo) (t : Todo) :
    (t ∈ todosMatched now userID { emptyQuery with overdue := some true } db ↔
      t ∈ db ∧ t.userID = userID ∧ (∃ d, t.dueDate = some d ∧ d < now)
        ∧ t.status ≠ Status.completed ∧ t.status ≠ Status.archived)
    ∧ (t.dueDate = some (now + nsPerSecond) →
        t ∉ todosMatched now userID { emptyQuery with overdue := some true } db)
    ∧ (∀ q : GetTodosQuery, q.overdue = some true →
        t ∈ (GetTodos now userID q db).data →
        t.userID = userID ∧ t.isOverdue now = true) := by
  have hchar : ∀ u : Todo, u.isOverdue now = true ↔
      (∃ d, u.dueDate = some d ∧ d < now)
        ∧ u.status ≠ Status.completed ∧ u.status ≠ Status.archived := by
    intro u
    unfold Todo.isOverdue
    cases hdd : u.dueDate with
    | none => simp [hdd]
    | some d =>
        simp only [Bool.and_eq_true, decide_eq_true_eq, Bool.not_eq_eq_eq_not,
          Bool.not_true, beq_eq_false_iff_ne, ne_eq, hdd]
        constructor
        · rintro ⟨⟨hlt, hc⟩, ha⟩
          exact ⟨⟨d, rfl, hlt⟩, hc, ha⟩
        · rintro ⟨⟨e, he, hlt⟩, hc, ha⟩
          cases he
          exact ⟨⟨hlt, hc⟩, ha⟩
  have hmatch : ∀ u : Todo,
      matchesFilters now userID { emptyQuery with overdue := some true } u = true
        ↔ u.userID = userID ∧ u.isOverdue now = true := by
    intro u
    unfold matchesFilters
    simp [emptyQuery, Bool.and_eq_true]
  refine ⟨?_, ?_, ?_⟩
  · unfold todosMatched
    rw [List.mem_filter, hmatch t, hchar t]
  · intro hdd hmem
    unfold todosMatched at hmem
    have h2 := (hmatch t).mp (List.mem_filter.mp hmem).2
    have h3 := (hchar t).mp h2.2
    obtain ⟨⟨d, hd, hlt⟩, -, -⟩ := h3
    rw [hdd] at hd
    have hde : now + nsPerSecond = d := Option.some.inj hd
    have hlt2 : now + nsPerSecond < now := by
      rw [hde]
      exact hlt
    have hpos : (0 : Int) < nsPerSecond := by decide
    linarith
  · intro q hov hmem
    have hm := mem_todosMatched_of_mem_data hmem
    unfold todosMatched at hm
    have hf := (List.mem_filter.mp hm).2
    exact ⟨matchesFilters_userID hf, matchesFilters_overdue hov hf⟩

/-- Witness for C4: a concrete overdue todo of user A is matched by the
overdue listing over a two-todo store, and a todo due one second ahead
is not. -/
theorem GetTodos_overdue_filter_witness :
    { sampleTodo 1 "A" with dueDate := some (-5) }
      ∈ todosMatched 0 "A" { emptyQuery with overdue := some true }
        [{ sampleTodo 1 "A" with dueDate := some (-5) },
          { sampleTodo 2 "A" with dueDate := some nsPerSecond }]
    ∧ { sampleTodo 2 "A" with dueDate := some nsPerSecond }
      ∉ todosMatched 0 "A" { emptyQuery with overdue := some true }
        [{ sampleTodo 1 "A" with dueDate := some (-5) },
          { sampleTodo 2 "A" with dueDate := some nsPerSecond }] := by
  constructor
  · exact (GetTodos_overdue_filter 0 "A" _ _).1.mpr
      (by refine ⟨by decide, rfl, ⟨-5, rfl, by decide⟩, by decide, by decide⟩)
  · exact (GetTodos_overdue_filter 0 "A" _ _).2.1 rfl

/-- Claim C2: every todo observable after a create and any sequence of
service-layer updates satisfies the completedAt invariant: the timestamp
is non-null exactly when the status is completed; create establishes it
and update preserves it. -/
theorem TodoService_completedAt_invariant :
    (∀ (now : Time) (newID : Nat) (userID : String) (p : CreateTodoPayload),
      completedInvariant (TodoService.CreateTodo now newID userID p))
    ∧ (∀ (now : Time) (t : Todo) (p : UpdateTodoPayload),
        completedInvariant t →
        completedInvariant (TodoService.UpdateTodo now t p))
    ∧ (∀ (now : Time) (newID : Nat) (userID : String)
        (p : CreateTodoPayload) (ops : List (Time × UpdateTodoPayload)),
        completedInvariant
          (applyUpdates (TodoService.CreateTodo now newID userID p) ops)) := by
  have hc : ∀ (now : Time) (newID : Nat) (userID : String)
      (p : CreateTodoPayload),
      completedInvariant (TodoService.CreateTodo now newID userID p) := by
    intro now newID userID p
    unfold completedInvariant TodoService.CreateTodo
    by_cases hst : p.status.getD Status.draft = Status.completed <;>
      simp [hst]
  have hu : ∀ (now : Time) (t : Todo) (p : UpdateTodoPayload),
      completedInvariant t →
      completedInvariant (TodoService.UpdateTodo now t p) := by
    intro now t p h
    unfold completedInvariant TodoService.UpdateTodo
    unfold completedInvariant at h
    cases hps : p.status with
    | none =>
        by_cases hts : t.status = Status.completed
        · simp [hps, hts, h.mpr hts]
        · simp [hps, hts]
    | some s =>
        by_cases hs : s = Status.completed
        · by_cases hts : t.status = Status.completed
          · simp [hps, hs, hts, h.mpr hts]
          · simp [hps, hs, hts]
        · simp [hps, hs]
  have ha : ∀ (ops : List (Time × UpdateTodoPayload)) (t : Todo),
      completedInvariant t → completedInvariant (applyUpdates t ops) := by
    intro ops
    induction ops with
    | nil =>
        intro t h
        exact h
    | cons op rest ih =>
        intro t h
        exact ih _ (hu op.1 t op.2 h)
  exact ⟨hc, hu, fun now newID userID p ops => ha ops _ (hc now newID userID p)⟩

/-- Witness for C2: a concrete update marking a fresh active todo as
completed yields a todo satisfying the invariant. -/
theorem TodoService_completedAt_invariant_witness :
    completedInvariant
      (TodoService.UpdateTodo 5 (sampleTodo 0 "A")
        (⟨0, none, none, some Status.completed, none, none, none, none,
          none⟩ : UpdateTodoPayload)) :=
  TodoService_completedAt_invariant.2.1 5 (sampleTodo 0 "A")
    (⟨0, none, none, some Status.completed, none, none, none, none, none⟩ :
      UpdateTodoPayload)
    (by constructor <;> intro h <;> simp [sampleTodo] at h)

/-- Claim C5: a typed-handler endpoint rejects a request whose decoding
fails with a structured 400 without invoking the business function (the
outcome is the same for any two business functions), and rejects a
request whose validation fails with one 400 carrying every violated
field mapped to its message, again without invoking the business
function. -/
theorem Handle_bind_validation_gate {Raw Req Res : Type}
    (bind : Raw → BindResult Req) (rules : List (FieldRule Req))
    (b₁ b₂ : Req → Except HTTPError Res) (s : Nat) (raw : Raw) :
    (∀ msg, bind raw = BindResult.failed msg →
      Handle bind rules b₁ s raw = Response.failure (NewBadRequestError msg)
      ∧ (NewBadRequestError msg).status = 400
      ∧ Handle bind rules b₁ s raw = Handle bind rules b₂ s raw)
    ∧ (∀ req, bind raw = BindResult.ok req →
        extractValidationErrors rules req ≠ [] →
        Handle bind rules b₁ s raw
          = Response.failure (ValidationError (extractValidationErrors rules req))
        ∧ (ValidationError (extractValidationErrors rules req)).status = 400
        ∧ (∀ r ∈ rules, r.check req = false →
            (r.field, r.message)
              ∈ (ValidationError (extractValidationErrors rules req)).errors)
        ∧ Handle bind rules b₁ s raw = Handle bind rules b₂ s raw) := by
  constructor
  · intro msg hbind
    have h1 : Handle bind rules b₁ s raw
        = Response.failure (NewBadRequestError msg) := by
      unfold Handle BindAndValidate
      rw [hbind]
    have h2 : Handle bind rules b₂ s raw
        = Response.failure (NewBadRequestError msg) := by
      unfold Handle BindAndValidate
      rw [hbind]
    exact ⟨h1, rfl, h1.trans h2.symm⟩
  · intro req hbind hne
    cases hE : extractValidationErrors rules req with
    | nil => exact absurd hE hne
    | cons e es =>
        have h1 : Handle bind rules b₁ s raw
            = Response.failure (ValidationError (e :: es)) := by
          unfold Handle BindAndValidate
          rw [hbind]
          simp only [hE]
        have h2 : Handle bind rules b₂ s raw
            = Response.failure (ValidationError (e :: es)) := by
          unfold Handle BindAndValidate
          rw [hbind]
          simp only [hE]
        refine ⟨h1, rfl, ?_, h1.trans h2.symm⟩
        intro r hr hcheck
        show (r.field, r.message) ∈ (ValidationError (e :: es)).errors
        have hmem : (r.field, r.message) ∈ extractValidationErrors rules req :=
          List.mem_map_of_mem _ (List.mem_filter.mpr ⟨hr, by simp [hcheck]⟩)
        rw [hE] at hmem
        exact hmem

/-- Witness for C5: a concrete handler over Bool raw requests rejects
the undecodable request with the 400 bad-request error and the decodable
but invalid request with the 400 validation error naming the field. -/
theorem Handle_bind_validation_gate_witness :
    Handle (fun b : Bool => if b then BindResult.ok (0 : Nat)
        else BindResult.failed "bad")
      [⟨"n", "required", fun n => decide (0 < n)⟩]
      (fun _ => Except.ok (7 : Nat)) 200 false
      = Response.failure (NewBadRequestError "bad")
    ∧ Handle (fun b : Bool => if b then BindResult.ok (0 : Nat)
        else BindResult.failed "bad")
      [⟨"n", "required", fun n => decide (0 < n)⟩]
      (fun _ => Except.ok (7 : Nat)) 200 true
      = Response.failure (ValidationError [("n", "required")]) := by
  constructor
  · exact ((Handle_bind_validation_gate
      (fun b : Bool => if b then BindResult.ok (0 : Nat)
        else BindResult.failed "bad")
      [⟨"n", "required", fun n => decide (0 < n)⟩]
      (fun _ => Except.ok (7 : Nat)) (fun _ => Except.ok (7 : Nat))
      200 false).1 "bad" rfl).1
  · exact ((Handle_bind_validation_gate
      (fun b : Bool => if b then BindResult.ok (0 : Nat)
        else BindResult.failed "bad")
      [⟨"n", "required", fun n => decide (0 < n)⟩]
      (fun _ => Except.ok (7 : Nat)) (fun _ => Except.ok (7 : Nat))
      200 true).2 0 rfl (by decide)).1

/-- Claim C6: the storage-error mapping passes structured HTTP errors
through unchanged, maps no-rows to 404, uniqueness violations to 409,
not-null violations to 400 naming the offending field, foreign-key and
check violations to 400, and everything else to the fixed 500 whose
body is independent of the original error. -/
theorem HandleError_mapping :
    (∀ e : HTTPError, HandleError (RawError.httpError e) = e)
    ∧ (HandleError RawError.noRows).status = 404
    ∧ (∀ col detail,
        (HandleError (RawError.pgError PgErrorCode.uniqueViolation col
          detail)).status = 409)
    ∧ (∀ col detail,
        (HandleError (RawError.pgError PgErrorCode.notNullViolation col
          detail)).status = 400
        ∧ (col, "this field is required")
            ∈ (HandleError (RawError.pgError PgErrorCode.notNullViolation col
                detail)).errors)
    ∧ (∀ col detail,
        (HandleError (RawError.pgError PgErrorCode.foreignKeyViolation col
          detail)).status = 400)
    ∧ (∀ col detail,
        (HandleError (RawError.pgError PgErrorCode.checkViolation col
          detail)).status = 400)
    ∧ (∀ col detail,
        HandleError (RawError.pgError PgErrorCode.otherPg col detail)
          = NewInternalServerError)
    ∧ (∀ detail,
        HandleError (RawError.otherError detail) = NewInternalServerError)
    ∧ NewInternalServerError.status = 500 := by
  refine ⟨fun e => rfl, rfl, fun col detail => rfl,
    fun col detail => ⟨rfl, ?_⟩, fun col detail => rfl, fun col detail => rfl,
    fun col detail => rfl, fun detail => rfl, rfl⟩
  simp [HandleError, NewBadRequestError]

/-- Terminal task states are never dispatched: a step leaves them
unchanged. -/
theorem stepTask_terminal {policy : TaskPolicy} {ok : Bool} {t : Task}
    (h : t.state ≠ TaskState.pending) : stepTask policy ok t = t := by
  unfold stepTask
  cases hs : t.state with
  | pending => exact absurd hs h
  | succeeded => rfl
  | dead => rfl

/-- Runs from a terminal task state change nothing. -/
theorem runTask_terminal {policy : TaskPolicy} {t : Task}
    (h : t.state ≠ TaskState.pending) :
    ∀ outcomes, runTask policy outcomes t = t := by
  intro outcomes
  induction outcomes with
  | nil => rfl
  | cons ok rest ih =>
      unfold runTask at ih ⊢
      simp only [List.foldl_cons, stepTask_terminal h]
      exact ih

/-- Attempt-budget invariant of one step under the default policy: a
task attempted at most 3 times, and fewer than 3 times while pending,
keeps that property. -/
theorem stepTask_default_inv (ok : Bool) (t : Task)
    (h1 : t.attempts ≤ 3) (h2 : t.state = TaskState.pending → t.attempts ≤ 2) :
    (stepTask defaultTaskPolicy ok t).attempts ≤ 3
    ∧ ((stepTask defaultTaskPolicy ok t).state = TaskState.pending →
        (stepTask defaultTaskPolicy ok t).attempts ≤ 2) := by
  obtain ⟨ty, pl, a, st⟩ := t
  cases st with
  | pending =>
      have ha : a ≤ 2 := h2 rfl
      cases ok with
      | true =>
          simp [stepTask]
          omega
      | false =>
          by_cases hlt : a + 1 < defaultTaskPolicy.maxAttempts
          · have hlt3 : a + 1 < 3 := hlt
            simp only [stepTask, Bool.false_eq_true, if_false, if_pos hlt]
            exact ⟨by omega, fun _ => by omega⟩
          · simp only [stepTask, Bool.false_eq_true, if_false, if_neg hlt]
            exact ⟨by omega, by simp⟩
  | succeeded => exact ⟨h1, by simp [stepTask]⟩
  | dead => exact ⟨h1, by simp [stepTask]⟩

/-- Attempt-budget invariant of the default policy across any run. -/
theorem runTask_default_inv :
    ∀ (outcomes : List Bool) (t : Task),
      t.attempts ≤ 3 → (t.state = TaskState.pending → t.attempts ≤ 2) →
      (runTask defaultTaskPolicy outcomes t).attempts ≤ 3
        ∧ ((runTask defaultTaskPolicy outcomes t).state = TaskState.pending →
            (runTask defaultTaskPolicy outcomes t).attempts ≤ 2) := by
  intro outcomes
  induction outcomes with
  | nil =>
      intro t h1 h2
      exact ⟨h1, h2⟩
  | cons ok rest ih =>
      intro t h1 h2
      have hstep := stepTask_default_inv ok t h1 h2
      have hrec := ih (stepTask defaultTaskPolicy ok t) hstep.1 hstep.2
      simpa [runTask, List.foldl_cons] using hrec

/-- Claim C7: under the default policy the dispatcher attempts delivery
at most 3 times; a task whose handler fails 3 times ends dead with its
type and payload retained, and any further run of the system leaves it
unchanged, so it is never dispatched a 4th time. -/
theorem jobDispatcher_three_attempts :
    (∀ (taskType payload : String) (outcomes : List Bool),
      (runTask defaultTaskPolicy outcomes (newTask taskType payload)).attempts
        ≤ 3)
    ∧ (∀ taskType payload : String,
        runTask defaultTaskPolicy [false, false, false]
            (newTask taskType payload)
          = ⟨taskType, payload, 3, TaskState.dead⟩)
    ∧ (∀ (taskType payload : String) (more : List Bool),
        runTask defaultTaskPolicy more
            (runTask defaultTaskPolicy [false, false, false]
              (newTask taskType payload))
          = runTask defaultTaskPolicy [false, false, false]
              (newTask taskType payload)) := by
  have hdead : ∀ taskType payload : String,
      runTask defaultTaskPolicy [false, false, false]
          (newTask taskType payload)
        = ⟨taskType, payload, 3, TaskState.dead⟩ := fun _ _ => rfl
  refine ⟨?_, hdead, ?_⟩
  · intro taskType payload outcomes
    exact (runTask_default_inv outcomes (newTask taskType payload)
      (by simp [newTask]) (by simp [newTask])).1
  · intro taskType payload more
    rw [hdead]
    exact runTask_terminal (by simp) more

/-- Counterexample to claim C8: neither route registration contains any
PUT route at the update paths — the update routes are registered with
PATCH, so the claim that PUT is registered is false on the code
(src/backend/internal/router/v1/category.go line 20 and
src/unnamed/part_001 line 356). -/
theorem registerRoutes_no_put :
    (¬ ∃ r ∈ registerCategoryRoutes,
      r.method = Method.PUT ∧ r.path = "/api/v1/categories/:id")
    ∧ (¬ ∃ r ∈ registerCommentRoutes,
        r.method = Method.PUT ∧ r.path = "/api/v1/comments/:id") := by
  constructor
  · decide
  · decide

/-- Claim C8 as amended: the update routes of categories and comments
are registered with HTTP method PATCH at /api/v1/categories/:id and
/api/v1/comments/:id, reaching UpdateCategory and UpdateComment, and no
registered route of either group uses PUT. -/
theorem registerRoutes_update_via_patch :
    (⟨Method.PATCH, "/api/v1/categories/:id", "UpdateCategory"⟩ : Route)
      ∈ registerCategoryRoutes
    ∧ (⟨Method.PATCH, "/api/v1/comments/:id", "UpdateComment"⟩ : Route)
      ∈ registerCommentRoutes
    ∧ registerCategoryRoutes.all (fun r => !(r.method == Method.PUT)) = true
    ∧ registerCommentRoutes.all (fun r => !(r.method == Method.PUT)) = true := by
  refine ⟨by decide, by decide, by decide, by decide⟩

/-- Claim C9: a successful CreateTodo request is answered with status
201 and the created todo as the JSON body, and a successful DeleteTodo
request is answered with status 204 and no body (the no-content variant
whose business function returns only an error). -/
theorem TodoHandler_success_statuses {Raw : Type}
    (bindC : Raw → BindResult CreateTodoPayload)
    (rulesC : List (FieldRule CreateTodoPayload))
    (svcC : String → CreateTodoPayload → Except HTTPError Todo)
    (bindD : Raw → BindResult DeleteTodoPayload)
    (rulesD : List (FieldRule DeleteTodoPayload))
    (svcD : String → Nat → Option HTTPError)
    (userID : String) (rawC rawD : Raw)
    (p : CreateTodoPayload) (d : DeleteTodoPayload) (t : Todo) :
    (bindC rawC = BindResult.ok p → extractValidationErrors rulesC p = [] →
      svcC userID p = Except.ok t →
      TodoHandler.CreateTodo bindC rulesC svcC userID rawC
        = Response.json 201 t)
    ∧ (bindD rawD = BindResult.ok d → extractValidationErrors rulesD d = [] →
        svcD userID d.id = none →
        TodoHandler.DeleteTodo bindD rulesD svcD userID rawD
          = Response.noContent 204) := by
  constructor
  · intro hbind hval hsvc
    unfold TodoHandler.CreateTodo Handle BindAndValidate
    rw [hbind]
    simp only [hval, hsvc]
  · intro hbind hval hsvc
    unfold TodoHandler.DeleteTodo HandleNoContent BindAndValidate
    rw [hbind]
    simp only [hval, hsvc]

/-- Witness for C9: concrete create and delete requests over a trivial
binder answer 201 with the created todo and 204 with no body. -/
theorem TodoHandler_success_statuses_witness :
    TodoHandler.CreateTodo
      (fun _ : Unit => BindResult.ok
        (⟨"hello", none, none, none, none, none, none, none⟩ :
          CreateTodoPayload))
      []
      (fun userID p => Except.ok (TodoService.CreateTodo 0 1 userID p))
      "A" ()
      = Response.json 201
          (TodoService.CreateTodo 0 1 "A"
            (⟨"hello", none, none, none, none, none, none, none⟩ :
              CreateTodoPayload))
    ∧ TodoHandler.DeleteTodo
      (fun _ : Unit => BindResult.ok (⟨7⟩ : DeleteTodoPayload))
      [] (fun _ _ => none) "A" ()
      = Response.noContent 204 := by
  constructor
  · exact (TodoHandler_success_statuses
      (fun _ : Unit => BindResult.ok
        (⟨"hello", none, none, none, none, none, none, none⟩ :
          CreateTodoPayload))
      []
      (fun userID p => Except.ok (TodoService.CreateTodo 0 1 userID p))
      (fun _ : Unit => BindResult.ok (⟨7⟩ : DeleteTodoPayload))
      [] (fun _ _ => none) "A" () ()
      (⟨"hello", none, none, none, none, none, none, none⟩ :
        CreateTodoPayload)
      (⟨7⟩ : DeleteTodoPayload)
      (TodoService.CreateTodo 0 1 "A"
        (⟨"hello", none, none, none, none, none, none, none⟩ :
          CreateTodoPayload))).1 rfl rfl rfl
  · exact (TodoHandler_success_statuses
      (fun _ : Unit => BindResult.ok
        (⟨"hello", none, none, none, none, none, none, none⟩ :
          CreateTodoPayload))
      []
      (fun userID p => Except.ok (TodoService.CreateTodo 0 1 userID p))
      (fun _ : Unit => BindResult.ok (⟨7⟩ : DeleteTodoPayload))
      [] (fun _ _ => none) "A" () ()
      (⟨"hello", none, none, none, none, none, none, none⟩ :
        CreateTodoPayload)
      (⟨7⟩ : DeleteTodoPayload)
      (TodoService.CreateTodo 0 1 "A"
        (⟨"hello", none, none, none, none, none, none, none⟩ :
          CreateTodoPayload))).2 rfl rfl rfl

/-- Truncation toward zero of a nonneg dividend equals the floor of the
rational quotient. -/
theorem tdiv_nonneg_eq_floor (a b : ℤ) (ha : 0 ≤ a) (hb : 0 < b) :
    Int.tdiv a b = ⌊(a : ℚ) / (b : ℚ)⌋ := by
  rw [Int.tdiv_eq_ediv ha hb.le]
  have hbn : ((b.toNat : ℤ)) = b := Int.toNat_of_nonneg hb.le
  have hq : ((b.toNat : ℕ) : ℚ) = (b : ℚ) := by
    exact_mod_cast congrArg (fun z : ℤ => (z : ℚ)) hbn
  calc a / b = a / (b.toNat : ℤ) := by rw [hbn]
    _ = ⌊((a : ℚ) / ((b.toNat : ℕ) : ℚ))⌋ :=
        (Rat.floor_intCast_div_natCast a b.toNat).symm
    _ = ⌊(a : ℚ) / (b : ℚ)⌋ := by rw [hq]

/-- Truncation toward zero of a nonpos dividend equals the ceiling of
the rational quotient. -/
theorem tdiv_nonpos_eq_ceil (a b : ℤ) (ha : a ≤ 0) (hb : 0 < b) :
    Int.tdiv a b = ⌈(a : ℚ) / (b : ℚ)⌉ := by
  have h1 : Int.tdiv a b = -(Int.tdiv (-a) b) := by
    rw [Int.neg_tdiv, neg_neg]
  rw [h1, tdiv_nonneg_eq_floor (-a) b (by linarith) hb]
  have hcast : (((-a : ℤ)) : ℚ) / (b : ℚ) = -((a : ℚ) / (b : ℚ)) := by
    push_cast
    ring
  rw [hcast, Int.floor_neg, neg_neg]

/-- Dividing by one hour and then by 24 is dividing by one day. -/
theorem div_hours_24 (x : ℚ) :
    x / (nsPerHour : ℚ) / 24 = x / (nsPerDay : ℚ) := by
  unfold nsPerDay nsPerHour nsPerSecond
  rw [div_div]
  push_cast
  norm_num

/-- Counterexample to claim C10: a dueDate one hour in the past yields
DaysUntilDue = 0, not a negative value — int() truncation toward zero
sends every past-due duration shorter than one day to 0. -/
theorem daysUntilDue_pastdue_zero :
    (SendDueDateReminderEmailData 0 "t" "id" (-nsPerHour)).daysUntilDue = 0
    ∧ ¬ ((SendDueDateReminderEmailData 0 "t" "id"
        (-nsPerHour)).daysUntilDue < 0) := by
  constructor
  · decide
  · decide

/-- Claim C10 as amended: DaysUntilDue is the truncation toward zero of
the due duration in hours divided by 24 (floor for a nonneg duration,
ceiling for a nonpos one); a todo due less than 24 hours from now (and
not past due) yields 0; a past-due dueDate yields a value that is never
an error and is nonpositive, becoming negative once at least one full
day past due; DaysOverdue is symmetric, the negation of DaysUntilDue. -/
theorem daysUntilDue_truncation (now dueDate : Time) (title tid : String) :
    (SendDueDateReminderEmailData now title tid dueDate).daysUntilDue
        = Int.tdiv (dueDate - now) nsPerDay
    ∧ (0 ≤ dueDate - now →
        (SendDueDateReminderEmailData now title tid dueDate).daysUntilDue
          = ⌊((dueDate - now : ℤ) : ℚ) / (nsPerHour : ℚ) / 24⌋)
    ∧ (dueDate - now ≤ 0 →
        (SendDueDateReminderEmailData now title tid dueDate).daysUntilDue
          = ⌈((dueDate - now : ℤ) : ℚ) / (nsPerHour : ℚ) / 24⌉)
    ∧ (0 ≤ dueDate - now → dueDate - now < nsPerDay →
        (SendDueDateReminderEmailData now title tid dueDate).daysUntilDue = 0)
    ∧ (dueDate - now ≤ 0 →
        (SendDueDateReminderEmailData now title tid dueDate).daysUntilDue ≤ 0)
    ∧ (dueDate - now ≤ -nsPerDay →
        (SendDueDateReminderEmailData now title tid dueDate).daysUntilDue < 0)
    ∧ (SendOverdueNotificationEmailData now title tid dueDate).daysOverdue
        = -(SendDueDateReminderEmailData now title tid dueDate).daysUntilDue
    ∧ (0 ≤ now - dueDate →
        (SendOverdueNotificationEmailData now title tid dueDate).daysOverdue
          = ⌊((now - dueDate : ℤ) : ℚ) / (nsPerHour : ℚ) / 24⌋) := by
  have hday : (0 : ℤ) < nsPerDay := by decide
  have hdayQ : (0 : ℚ) < (nsPerDay : ℚ) := by exact_mod_cast hday
  refine ⟨rfl, ?_, ?_, ?_, ?_, ?_, ?_, ?_⟩
  · intro h
    show Int.tdiv (dueDate - now) nsPerDay = _
    rw [div_hours_24]
    exact tdiv_nonneg_eq_floor _ _ h hday
  · intro h
    show Int.tdiv (dueDate - now) nsPerDay = _
    rw [div_hours_24]
    exact tdiv_nonpos_eq_ceil _ _ h hday
  · intro h hlt
    show Int.tdiv (dueDate - now) nsPerDay = 0
    rw [tdiv_nonneg_eq_floor _ _ h hday]
    rw [Int.floor_eq_zero_iff]
    constructor
    · apply div_nonneg _ hdayQ.le
      exact_mod_cast h
    · rw [div_lt_one hdayQ]
      exact_mod_cast hlt
  · intro h
    show Int.tdiv (dueDate - now) nsPerDay ≤ 0
    rw [tdiv_nonpos_eq_ceil _ _ h hday]
    have h0 : ((dueDate - now : ℤ) : ℚ) ≤ 0 := by exact_mod_cast h
    have hq : ((dueDate - now : ℤ) : ℚ) / (nsPerDay : ℚ) ≤ 0 :=
      div_nonpos_of_nonpos_of_nonneg h0 hdayQ.le
    exact_mod_cast Int.ceil_le.mpr (by exact_mod_cast hq)
  · intro h
    show Int.tdiv (dueDate - now) nsPerDay < 0
    have h0 : dueDate - now ≤ 0 := by linarith
    rw [tdiv_nonpos_eq_ceil _ _ h0 hday]
    have hq : ((dueDate - now : ℤ) : ℚ) / (nsPerDay : ℚ) ≤ -1 := by
      rw [div_le_iff₀ hdayQ]
      have : ((dueDate - now : ℤ) : ℚ) ≤ -((nsPerDay : ℤ) : ℚ) := by
        exact_mod_cast h
      linarith
    have hc : (⌈((dueDate - now : ℤ) : ℚ) / (nsPerDay : ℚ)⌉ : ℤ) ≤ -1 :=
      Int.ceil_le.mpr (by exact_mod_cast hq)
    linarith
  · show Int.tdiv (now - dueDate) nsPerDay
        = -(Int.tdiv (dueDate - now) nsPerDay)
    have hs : now - dueDate = -(dueDate - now) := by ring
    rw [hs, Int.neg_tdiv]
  · intro h
    show Int.tdiv (now - dueDate) nsPerDay = _
    rw [div_hours_24]
    exact tdiv_nonneg_eq_floor _ _ h hday

/-- Witness for the amended C10: a todo due in two hours yields
DaysUntilDue = 0. -/
theorem daysUntilDue_truncation_witness :
    (SendDueDateReminderEmailData 0 "t" "id"
      (2 * nsPerHour)).daysUntilDue = 0 :=
  (daysUntilDue_truncation 0 (2 * nsPerHour) "t" "id").2.2.2.1
    (by decide) (by decide)

end TaskManager
